import Mathlib

/-!
Verification of the Dense (affine) layer of the Beras framework
(src/beras/layers.py) against its natural-language specification.

Shallow embedding conventions:
* numpy floating-point values are modelled as rationals (`Rat`);
* a numpy 1-D array is a `List Rat`, a 2-D array a `List (List Rat)`;
* a layer input (rank 1 or rank 2) is the sum type `Tensor`;
* fallible operations return `Except LayerError _`;
* the process-wide random source `np.random` is an explicit parameter
  (`RandomSource`).
-/

namespace Beras

abbrev Vec := List Rat
abbrev Mat := List (List Rat)

/-- A layer input: numpy array of rank 1 or rank 2 (`x.ndim` in the source). -/
inductive Tensor where
  | r1 : Vec → Tensor
  | r2 : Mat → Tensor
deriving DecidableEq

/-- Gradient tensors returned by the layer: rank 1, 2 or 3 numpy arrays. -/
inductive NDTensor where
  | r1 : Vec → NDTensor
  | r2 : Mat → NDTensor
  | r3 : List Mat → NDTensor
deriving DecidableEq

/-- The failures that can surface from the embedded code paths.
`npMatmulError` is the opaque error numpy's `@` raises on an inner-dimension
mismatch (payload: the operand's trailing dimension and the expected one).
`denseShapeMismatch` is a dedicated layer-level shape check; the source of
`Dense.forward` contains no such check, so no embedded operation ever
produces it.  `unknownInitializer` is the `ValueError` raised by
`_initialize_weight`, carrying the string interpolated into its message.
`noCachedInput` is the state-precondition failure of a gradient call made
before any forward call. -/
inductive LayerError where
  | npMatmulError : Nat → Nat → LayerError
  | denseShapeMismatch : Nat → Nat → LayerError
  | unknownInitializer : String → LayerError
  | noCachedInput : LayerError
deriving DecidableEq

/-- numpy 2-D matrix multiplication `x @ w`: requires every row of `x` to have
length `w.length` (the inner dimension); on mismatch it raises its own
`ValueError`, modelled as `npMatmulError`.  The result has `x.length` rows of
`(w.headD []).length` columns, entry (i, j) being the dot product of row i of
`x` with column j of `w`. -/
def npMatmul (x w : Mat) : Except LayerError Mat :=
  if x.all (fun row => row.length == w.length) then
    Except.ok (x.map (fun row =>
      (List.range (w.headD []).length).map (fun j =>
        (List.zipWith (fun a wr => a * wr.getD j 0) row w).sum)))
  else
    Except.error (LayerError.npMatmulError (x.headD []).length w.length)

/-- numpy broadcast addition of a bias row vector `b` to every row of `m`
(each row of `m` has length `b.length` wherever this is applied). -/
def addBias (m : Mat) (b : Vec) : Mat :=
  m.map (fun row => List.zipWith (fun a c => a + c) row b)

/-- `np.zeros((r, c))` and friends: an r × c matrix whose (i, j) entry is
`f i j`. -/
def mkMatrix (r c : Nat) (f : Nat → Nat → Rat) : Mat :=
  (List.range r).map (fun i => (List.range c).map (fun j => f i j))

/-- The process-wide random source consumed by `_initialize_weight`.  Each
field gives the sampled entry at index (i, j) for one of the five random
strategies, already scaled by that strategy's stated standard deviation or
uniform limit (the scales involve square roots and are not the subject of any
verified claim, so the draws are kept abstract). -/
structure RandomSource where
  normal01 : Nat → Nat → Rat
  normalXavier : Nat → Nat → Rat
  normalKaiming : Nat → Nat → Rat
  uniformXavier : Nat → Nat → Rat
  uniformKaiming : Nat → Nat → Rat

/-- Python's `str.lower()` restricted to its ASCII behaviour (the strategy
names are ASCII): lowercases every character. -/
def strToLower (s : String) : String :=
  String.mk (s.data.map Char.toLower)

/-- The six recognized initializer names, exactly as compared against the
lowercased argument in `_initialize_weight`. -/
def recognizedInitializers : List String :=
  ["zero", "normal", "xavier", "kaiming", "xavier uniform", "kaiming uniform"]

/-- Embeds `Dense._initialize_weight`: lowercases the strategy name, then an
if/elif chain over the six recognized names, each producing `(w, b)` with `b`
all-zero of length `output_size`; the final else raises a `ValueError` naming
the (lowercased) string. -/
def initialize_weight (rng : RandomSource) (initializer : String)
    (input_size output_size : Nat) : Except LayerError (Mat × Vec) :=
  let init := strToLower initializer
  if init = "zero" then
    Except.ok (mkMatrix input_size output_size (fun _ _ => 0),
      List.replicate output_size 0)
  else if init = "normal" then
    Except.ok (mkMatrix input_size output_size rng.normal01,
      List.replicate output_size 0)
  else if init = "xavier" then
    Except.ok (mkMatrix input_size output_size rng.normalXavier,
      List.replicate output_size 0)
  else if init = "kaiming" then
    Except.ok (mkMatrix input_size output_size rng.normalKaiming,
      List.replicate output_size 0)
  else if init = "xavier uniform" then
    Except.ok (mkMatrix input_size output_size rng.uniformXavier,
      List.replicate output_size 0)
  else if init = "kaiming uniform" then
    Except.ok (mkMatrix input_size output_size rng.uniformKaiming,
      List.replicate output_size 0)
  else
    Except.error (LayerError.unknownInitializer init)

/-- The Dense layer: owns the weight matrix `w` (input_size × output_size)
and the bias vector `b` (length output_size).  The sizes are recorded as
fields because numpy arrays carry their shape; `d.output_size` is the
denotation of `self.w.shape[1]`. -/
structure Dense where
  input_size : Nat
  output_size : Nat
  w : Mat
  b : Vec
deriving DecidableEq

/-- Embeds `Dense.__init__`: construction delegates to `_initialize_weight`
and fails (creating no layer and hence no Parameter) when that raises. -/
def Dense.make (rng : RandomSource) (input_size output_size : Nat)
    (initializer : String) : Except LayerError Dense :=
  match initialize_weight rng initializer input_size output_size with
  | Except.error e => Except.error e
  | Except.ok (w, b) => Except.ok ⟨input_size, output_size, w, b⟩

/-- Embeds the `weights` property: returns `(self.w, self.b)` in that order. -/
def Dense.weights (d : Dense) : List NDTensor :=
  [NDTensor.r2 d.w, NDTensor.r1 d.b]

/-- Rank-1 promotion `x[None, :]`: a rank-1 input becomes a 1 × n matrix;
a rank-2 input is left as is. -/
def promote : Tensor → Mat
  | Tensor.r1 v => [v]
  | Tensor.r2 m => m

/-- Embeds `Dense.forward`: promotes a rank-1 input, then returns
`x @ self.w + self.b` with the bias broadcast across the batch dimension.
There is no layer-level shape check: a mismatched trailing dimension
surfaces as numpy's own matmul error. -/
def Dense.forward (d : Dense) (x : Tensor) : Except LayerError Mat :=
  match npMatmul (promote x) d.w with
  | Except.error e => Except.error e
  | Except.ok p => Except.ok (addBias p d.b)

/-- Embeds `Dense.get_input_gradients`: `[self.w]`, reading no cached
state. -/
def Dense.get_input_gradients (d : Dense) : List NDTensor :=
  [NDTensor.r2 d.w]

/-- Embeds `Dense.get_weight_gradients` as a function of the cached input
`x = self.inputs[0]` (which may be rank 1 or rank 2; the source branches on
`x.ndim`).  `out_dim = self.w.shape[1] = d.output_size`.  The rank-1 branch
fills every column of an `(n, out_dim)` array with `x`; the rank-2 branch
fills, for each sample i, every column of slice i of a
`(batch, n, out_dim)` array with `x[i]`.  The bias gradient is
`np.ones((out_dim,))` in both branches. -/
def Dense.get_weight_gradientsAt (d : Dense) (x : Tensor) : List NDTensor :=
  match x with
  | Tensor.r1 v =>
      [NDTensor.r2 (v.map (fun xk => List.replicate d.output_size xk)),
       NDTensor.r1 (List.replicate d.output_size 1)]
  | Tensor.r2 m =>
      [NDTensor.r3 (m.map (fun xi =>
         xi.map (fun xk => List.replicate d.output_size xk))),
       NDTensor.r1 (List.replicate d.output_size 1)]

/-- Modelled from the spec: the `Diffable` base class (module `beras.core`,
not under src/) holds the cache `self.inputs` that `get_weight_gradients`
reads.  Per the spec, gradient operations are only valid after at least one
forward call, so the cache is an `Option`. -/
structure DenseState where
  layer : Dense
  inputs : Option Tensor
deriving DecidableEq

/-- A freshly constructed layer: no forward call has happened, so the cache
is empty. -/
def Dense.freshState (d : Dense) : DenseState := ⟨d, none⟩

/-- Modelled from the spec: invoking the layer runs `forward` and, on
success, caches the input for later gradient calls; the spec states "The
(possibly promoted) input is cached verbatim for gradient calls", so the
cached value is the promoted rank-2 tensor. -/
def DenseState.call (s : DenseState) (x : Tensor) :
    Except LayerError (DenseState × Mat) :=
  match s.layer.forward x with
  | Except.error e => Except.error e
  | Except.ok y => Except.ok (⟨s.layer, some (Tensor.r2 (promote x))⟩, y)

/-- Modelled from the spec: a gradient call made before any forward call
"must fail with a state-precondition error (no cached input)"; with a cached
input it computes `Dense.get_weight_gradientsAt` on it. -/
def DenseState.get_weight_gradients (s : DenseState) :
    Except LayerError (List NDTensor) :=
  match s.inputs with
  | none => Except.error LayerError.noCachedInput
  | some x => Except.ok (s.layer.get_weight_gradientsAt x)

/-- The state-level view of `get_input_gradients`: the source reads only
`self.w`, never the cache, so this is total in every state. -/
def DenseState.get_input_gradients (s : DenseState) : List NDTensor :=
  s.layer.get_input_gradients

/-- Shape predicate for a 2-D array: `r` rows, each of length `c`. -/
def isShape2 (m : Mat) (r c : Nat) : Bool :=
  m.length == r && m.all (fun row => row.length == c)

/-- Well-formedness of a layer: the shapes the spec's data-model invariant
requires, established by construction. -/
def Dense.wf (d : Dense) : Prop :=
  isShape2 d.w d.input_size d.output_size = true ∧
  d.b.length = d.output_size

/-- A valid forward input for trailing dimension `n`: a rank-1 vector of
length `n`, or a rank-2 batch whose rows all have length `n`. -/
def validInput (n : Nat) : Tensor → Bool
  | Tensor.r1 v => v.length == n
  | Tensor.r2 m => m.all (fun row => row.length == n)

/-- The trailing dimension of a numpy array (`shape[-1]`). -/
def trailingDim : Tensor → Nat
  | Tensor.r1 v => v.length
  | Tensor.r2 m => (m.headD []).length

/-- A rank-2 tensor models a genuine (non-ragged, nonempty) numpy array:
rank-1 always qualifies; rank-2 must be nonempty with uniform row length. -/
def tensorWf : Tensor → Bool
  | Tensor.r1 _ => true
  | Tensor.r2 m => !m.isEmpty && m.all (fun row => row.length == (m.headD []).length)

/-- Column j of a 2-D array. -/
def matCol (m : Mat) (j : Nat) : Vec :=
  m.map (fun row => row.getD j 0)

/-- Dot product of two equal-length vectors. -/
def dotList (u v : Vec) : Rat :=
  (List.zipWith (fun a c => a * c) u v).sum

/-- The affine map as the spec words it: output row i, column j is
`x[i] · W[:, j] + b[j]`, with `b` broadcast across the batch. -/
def affine (x2 : Mat) (w : Mat) (b : Vec) : Mat :=
  x2.map (fun row => (List.range b.length).map (fun j =>
    dotList row (matCol w j) + b.getD j 0))

instance exceptDecEq {ε α : Type} [DecidableEq ε] [DecidableEq α] :
    DecidableEq (Except ε α) := fun x y =>
  match x, y with
  | Except.ok a, Except.ok b =>
      if h : a = b then isTrue (by rw [h])
      else isFalse (fun hc => h (Except.ok.inj hc))
  | Except.error a, Except.error b =>
      if h : a = b then isTrue (by rw [h])
      else isFalse (fun hc => h (Except.error.inj hc))
  | Except.ok _, Except.error _ => isFalse (fun hc => Except.noConfusion hc)
  | Except.error _, Except.ok _ => isFalse (fun hc => Except.noConfusion hc)

/-- A deterministic random source used to instantiate theorems on concrete
layers (every draw is 0). -/
def zeroRng : RandomSource :=
  ⟨fun _ _ => 0, fun _ _ => 0, fun _ _ => 0, fun _ _ => 0, fun _ _ => 0⟩

/-- The concrete layer of the spec's example scenarios: zero initializer,
input_size = 2, output_size = 3. -/
def denseZero23 : Dense :=
  ⟨2, 3, mkMatrix 2 3 (fun _ _ => 0), List.replicate 3 0⟩

/-! ### Helper lemmas -/

theorem isShape2_iff (m : Mat) (r c : Nat) :
    isShape2 m r c = true ↔ m.length = r ∧ ∀ row ∈ m, row.length = c := by
  simp [isShape2, List.all_eq_true]

theorem mkMatrix_shape (r c : Nat) (f : Nat → Nat → Rat) :
    isShape2 (mkMatrix r c f) r c = true := by
  rw [isShape2_iff]
  constructor
  · simp [mkMatrix]
  · intro row hrow
    simp only [mkMatrix, List.mem_map] at hrow
    obtain ⟨i, _, rfl⟩ := hrow
    simp

theorem repGetD {j n : Nat} (a : Rat) (h : j < n) :
    (List.replicate n a).getD j 0 = a := by
  rw [List.getD_eq_getElem?_getD, List.getElem?_replicate_of_lt h]
  rfl

theorem getD_mem {α : Type} (l : List α) (i : Nat) (d : α) (h : i < l.length) :
    l.getD i d ∈ l := by
  rw [List.getD_eq_getElem l d h]
  exact List.getElem_mem h

theorem getD_map_lt {α β : Type} (f : α → β) (dflt : α) (dfltb : β) :
    ∀ (l : List α) (i : Nat), i < l.length →
      (l.map f).getD i dfltb = f (l.getD i dflt)
  | [], i, h => absurd h (by simp)
  | a :: l2, 0, _ => rfl
  | a :: l2, i + 1, h =>
      getD_map_lt f dflt dfltb l2 i (by simpa using h)

theorem getD_zero_of_all_zero :
    ∀ (l : Vec) (j : Nat), (∀ a ∈ l, a = 0) → l.getD j 0 = 0
  | [], _, _ => rfl
  | a :: l2, 0, h => h a (by simp)
  | a :: l2, j + 1, h =>
      getD_zero_of_all_zero l2 j (fun b hb => h b (List.mem_cons_of_mem a hb))

theorem initialize_weight_ok (rng : RandomSource) (name : String)
    (n m : Nat) (w : Mat) (b : Vec)
    (h : initialize_weight rng name n m = Except.ok (w, b)) :
    isShape2 w n m = true ∧ b = List.replicate m 0 := by
  simp only [initialize_weight] at h
  split_ifs at h <;>
    first
    | exact Except.noConfusion h
    | · simp only [Except.ok.injEq, Prod.mk.injEq] at h
        obtain ⟨rfl, rfl⟩ := h
        exact ⟨mkMatrix_shape n m _, rfl⟩

theorem make_ok (rng : RandomSource) (name : String) (n m : Nat) (d : Dense)
    (h : Dense.make rng n m name = Except.ok d) :
    d.input_size = n ∧ d.output_size = m ∧ d.wf ∧ d.b = List.replicate m 0 := by
  unfold Dense.make at h
  revert h
  cases hiw : initialize_weight rng name n m with
  | error e => intro h; exact Except.noConfusion h
  | ok p =>
      intro h
      obtain ⟨w, b⟩ := p
      simp only [Except.ok.injEq] at h
      obtain ⟨hs, hb⟩ := initialize_weight_ok rng name n m w b hiw
      subst h
      exact ⟨rfl, rfl, ⟨hs, by simp [hb]⟩, hb⟩

theorem npMatmul_ok (x w : Mat) (h : ∀ row ∈ x, row.length = w.length) :
    npMatmul x w = Except.ok (x.map (fun row =>
      (List.range (w.headD []).length).map (fun j =>
        (List.zipWith (fun a wr => a * wr.getD j 0) row w).sum))) := by
  unfold npMatmul
  rw [if_pos]
  rw [List.all_eq_true]
  intro row hrow
  simp [h row hrow]

theorem zipWith_mul_col (row : Vec) (w : Mat) (j : Nat) :
    (List.zipWith (fun a wr => a * wr.getD j 0) row w).sum =
      dotList row (matCol w j) := by
  unfold dotList matCol
  rw [List.zipWith_map_right]

theorem zipWith_add_range_map (b : Vec) (f : Nat → Rat) :
    List.zipWith (fun a c => a + c) ((List.range b.length).map f) b =
      (List.range b.length).map (fun j => f j + b.getD j 0) := by
  induction b generalizing f with
  | nil => rfl
  | cons c bs ih =>
      rw [List.length_cons, List.range_succ_eq_map]
      simp only [List.map_cons, List.map_map, List.zipWith_cons_cons,
        List.getD_cons_zero, List.getD_cons_succ, Function.comp_def,
        Nat.succ_eq_add_one]
      rw [ih (fun j => f (j + 1))]

theorem zipWith_mul_zero_right :
    ∀ (row : Vec) (w : Mat) (j : Nat), (∀ wr ∈ w, ∀ e ∈ wr, e = (0 : Rat)) →
      (List.zipWith (fun a wr => a * wr.getD j 0) row w).sum = 0
  | [], _, _, _ => rfl
  | _ :: _, [], _, _ => rfl
  | a :: row2, wr :: w2, j, h => by
      rw [List.zipWith_cons_cons, List.sum_cons]
      rw [zipWith_mul_zero_right row2 w2 j
        (fun wr2 hwr2 => h wr2 (List.mem_cons_of_mem wr hwr2))]
      rw [getD_zero_of_all_zero wr j (h wr (by simp))]
      simp

theorem mkMatrix_all_zero (n m : Nat) :
    ∀ wr ∈ mkMatrix n m (fun _ _ => (0 : Rat)), ∀ e ∈ wr, e = 0 := by
  intro wr hwr e he
  simp only [mkMatrix, List.mem_map] at hwr
  obtain ⟨i, _, rfl⟩ := hwr
  simp only [List.mem_map] at he
  obtain ⟨j, _, rfl⟩ := he
  rfl

theorem headD_length (m : Mat) (c : Nat) (hne : m ≠ [])
    (h : ∀ row ∈ m, row.length = c) : (m.headD []).length = c := by
  cases m with
  | nil => exact absurd rfl hne
  | cons a l => exact h a (by simp)

theorem promote_rows (n : Nat) (x : Tensor) (hx : validInput n x = true) :
    ∀ row ∈ promote x, row.length = n := by
  cases x with
  | r1 v =>
      intro row hrow
      simp only [promote, List.mem_singleton] at hrow
      subst hrow
      simpa [validInput] using hx
  | r2 m =>
      intro row hrow
      simp only [validInput, List.all_eq_true, beq_iff_eq] at hx
      exact hx row hrow

theorem forward_eq_affine (d : Dense) (x : Tensor) (hwf : d.wf)
    (hpos : 0 < d.input_size) (hx : validInput d.input_size x = true) :
    d.forward x = Except.ok (affine (promote x) d.w d.b) := by
  obtain ⟨hw, hb⟩ := hwf
  rw [isShape2_iff] at hw
  obtain ⟨hwlen, hwrows⟩ := hw
  have hne : d.w ≠ [] := by
    intro hnil
    rw [hnil] at hwlen
    simp at hwlen
    omega
  have hcols : (d.w.headD []).length = d.output_size :=
    headD_length d.w d.output_size hne hwrows
  have hrows : ∀ row ∈ promote x, row.length = d.w.length := by
    intro row hrow
    rw [hwlen]
    exact promote_rows d.input_size x hx row hrow
  unfold Dense.forward
  rw [npMatmul_ok (promote x) d.w hrows]
  dsimp only
  unfold addBias affine
  rw [List.map_map]
  apply congrArg
  apply List.map_congr_left
  intro row _
  simp only [Function.comp]
  rw [hcols, ← hb, zipWith_add_range_map]
  apply List.map_congr_left
  intro j _
  rw [zipWith_mul_col]

theorem make_ok_of_initialize_ok (rng : RandomSource) (n m : Nat)
    (name : String) (w0 : Mat)
    (hiw : initialize_weight rng name n m =
      Except.ok (w0, List.replicate m 0))
    (hs : isShape2 w0 n m = true) :
    ∃ d, Dense.make rng n m name = Except.ok d ∧
      d.weights = [NDTensor.r2 d.w, NDTensor.r1 d.b] ∧
      d.weights.length = 2 ∧
      d.input_size = n ∧ d.output_size = m ∧
      isShape2 d.w n m = true ∧
      d.b = List.replicate m 0 := by
  refine ⟨⟨n, m, w0, List.replicate m 0⟩, ?_, rfl, rfl, rfl, rfl, hs, rfl⟩
  unfold Dense.make
  rw [hiw]

/-! ### Claim theorems -/

/-- C1: for every valid input (rank-1 of length input_size, or rank-2 of
shape batch_size × input_size), `forward` first promotes a rank-1 input to
shape 1 × input_size, then returns x · W + b with b broadcast across the
batch; the output is always rank-2 of shape batch_size × output_size
(batch_size = 1 for a promoted single sample). -/
theorem forward_promotes_and_is_affine (d : Dense) (x : Tensor) (hwf : d.wf)
    (hpos : 0 < d.input_size) (hx : validInput d.input_size x = true) :
    d.forward x = Except.ok (affine (promote x) d.w d.b) ∧
    d.forward (Tensor.r2 (promote x)) = d.forward x ∧
    (∀ v, x = Tensor.r1 v → promote x = [v]) ∧
    (affine (promote x) d.w d.b).length =
      (match x with
       | Tensor.r1 _ => 1
       | Tensor.r2 m => m.length) ∧
    ∀ row ∈ affine (promote x) d.w d.b, row.length = d.output_size := by
  refine ⟨forward_eq_affine d x hwf hpos hx, rfl, ?_, ?_, ?_⟩
  · intro v hv
    subst hv
    rfl
  · unfold affine
    rw [List.length_map]
    cases x <;> rfl
  · intro row hrow
    simp only [affine, List.mem_map] at hrow
    obtain ⟨r0, _, rfl⟩ := hrow
    rw [List.length_map, List.length_range]
    exact hwf.2

/-- Witness for C1 at the spec's example: zero layer 2 × 3, input [1, 2]. -/
theorem forward_promotes_and_is_affine_witness :
    denseZero23.forward (Tensor.r1 [1, 2]) =
      Except.ok (affine (promote (Tensor.r1 [1, 2])) denseZero23.w denseZero23.b) ∧
    denseZero23.forward (Tensor.r2 (promote (Tensor.r1 [1, 2]))) =
      denseZero23.forward (Tensor.r1 [1, 2]) ∧
    (∀ v, Tensor.r1 [1, 2] = Tensor.r1 v → promote (Tensor.r1 [1, 2]) = [v]) ∧
    (affine (promote (Tensor.r1 [1, 2])) denseZero23.w denseZero23.b).length =
      (match Tensor.r1 [1, 2] with
       | Tensor.r1 _ => 1
       | Tensor.r2 m => m.length) ∧
    ∀ row ∈ affine (promote (Tensor.r1 [1, 2])) denseZero23.w denseZero23.b,
      row.length = denseZero23.output_size :=
  forward_promotes_and_is_affine denseZero23 (Tensor.r1 [1, 2])
    (by unfold Dense.wf; decide) (by decide) (by decide)

/-- C2: the first element of get_weight_gradients: for a rank-1 cached
input of length input_size it has shape (input_size, output_size) with every
column equal to x; for a rank-2 cached input of shape
(batch_size, input_size) it has shape (batch_size, input_size, output_size)
and for every sample index i every column of slice i equals x[i]. -/
theorem weight_gradient_first_element (s : DenseState) (x : Tensor)
    (hc : s.inputs = some x)
    (hx : validInput s.layer.input_size x = true) :
    (∀ v, x = Tensor.r1 v → ∃ g rest,
      s.get_weight_gradients = Except.ok (NDTensor.r2 g :: rest) ∧
      isShape2 g s.layer.input_size s.layer.output_size = true ∧
      ∀ j, j < s.layer.output_size → matCol g j = v) ∧
    (∀ bm, x = Tensor.r2 bm → ∃ g rest,
      s.get_weight_gradients = Except.ok (NDTensor.r3 g :: rest) ∧
      g.length = bm.length ∧
      ∀ i, i < bm.length →
        isShape2 (g.getD i []) s.layer.input_size s.layer.output_size = true ∧
        ∀ j, j < s.layer.output_size → matCol (g.getD i []) j = bm.getD i []) := by
  have hgw : s.get_weight_gradients =
      Except.ok (s.layer.get_weight_gradientsAt x) := by
    unfold DenseState.get_weight_gradients
    rw [hc]
  have colEq : ∀ (v : Vec) (j : Nat), j < s.layer.output_size →
      matCol (v.map (fun xk => List.replicate s.layer.output_size xk)) j = v := by
    intro v j hj
    unfold matCol
    rw [List.map_map]
    have h2 : v.map
        ((fun row => row.getD j 0) ∘ (fun xk => List.replicate s.layer.output_size xk)) =
        v.map id :=
      List.map_congr_left (fun a _ => repGetD a hj)
    rw [h2, List.map_id]
  have shapeEq : ∀ v : Vec, v.length = s.layer.input_size →
      isShape2 (v.map (fun xk => List.replicate s.layer.output_size xk))
        s.layer.input_size s.layer.output_size = true := by
    intro v hv
    rw [isShape2_iff]
    constructor
    · rw [List.length_map, hv]
    · intro row hrow
      simp only [List.mem_map] at hrow
      obtain ⟨xk, _, rfl⟩ := hrow
      simp
  constructor
  · intro v hv
    subst hv
    refine ⟨v.map (fun xk => List.replicate s.layer.output_size xk),
      [NDTensor.r1 (List.replicate s.layer.output_size 1)], ?_, ?_, colEq v⟩
    · rw [hgw]
      rfl
    · exact shapeEq v (by simpa [validInput] using hx)
  · intro bm hbm
    subst hbm
    simp only [validInput, List.all_eq_true, beq_iff_eq] at hx
    refine ⟨bm.map (fun xi =>
        xi.map (fun xk => List.replicate s.layer.output_size xk)),
      [NDTensor.r1 (List.replicate s.layer.output_size 1)], ?_, ?_, ?_⟩
    · rw [hgw]
      rfl
    · rw [List.length_map]
    · intro i hi
      have hslice : (bm.map (fun xi =>
          xi.map (fun xk => List.replicate s.layer.output_size xk))).getD i [] =
          (bm.getD i []).map (fun xk => List.replicate s.layer.output_size xk) :=
        getD_map_lt _ [] [] bm i hi
      rw [hslice]
      exact ⟨shapeEq (bm.getD i []) (hx (bm.getD i []) (getD_mem bm i [] hi)),
        colEq (bm.getD i [])⟩

/-- Witness for C2: zero layer 2 × 3 with the batched cached input
[[1, 2], [3, 4]]. -/
theorem weight_gradient_first_element_witness :
    (∀ v, Tensor.r2 [[1, 2], [3, 4]] = Tensor.r1 v → ∃ g rest,
      (DenseState.mk denseZero23
        (some (Tensor.r2 [[1, 2], [3, 4]]))).get_weight_gradients =
        Except.ok (NDTensor.r2 g :: rest) ∧
      isShape2 g (DenseState.mk denseZero23
        (some (Tensor.r2 [[1, 2], [3, 4]]))).layer.input_size
        (DenseState.mk denseZero23
          (some (Tensor.r2 [[1, 2], [3, 4]]))).layer.output_size = true ∧
      ∀ j, j < (DenseState.mk denseZero23
        (some (Tensor.r2 [[1, 2], [3, 4]]))).layer.output_size →
        matCol g j = v) ∧
    (∀ bm, Tensor.r2 [[1, 2], [3, 4]] = Tensor.r2 bm → ∃ g rest,
      (DenseState.mk denseZero23
        (some (Tensor.r2 [[1, 2], [3, 4]]))).get_weight_gradients =
        Except.ok (NDTensor.r3 g :: rest) ∧
      g.length = bm.length ∧
      ∀ i, i < bm.length →
        isShape2 (g.getD i []) (DenseState.mk denseZero23
          (some (Tensor.r2 [[1, 2], [3, 4]]))).layer.input_size
          (DenseState.mk denseZero23
            (some (Tensor.r2 [[1, 2], [3, 4]]))).layer.output_size = true ∧
        ∀ j, j < (DenseState.mk denseZero23
          (some (Tensor.r2 [[1, 2], [3, 4]]))).layer.output_size →
          matCol (g.getD i []) j = bm.getD i []) :=
  weight_gradient_first_element
    (DenseState.mk denseZero23 (some (Tensor.r2 [[1, 2], [3, 4]])))
    (Tensor.r2 [[1, 2], [3, 4]]) rfl (by decide)

/-- C3: the second element of get_weight_gradients is always the all-ones
vector of length output_size, never expanded by the batch size, identical
for rank-1 and rank-2 cached inputs. -/
theorem bias_gradient_always_ones (s : DenseState) (x : Tensor)
    (hc : s.inputs = some x) :
    s.get_weight_gradients = Except.ok (s.layer.get_weight_gradientsAt x) ∧
    (s.layer.get_weight_gradientsAt x).getD 1 (NDTensor.r1 []) =
      NDTensor.r1 (List.replicate s.layer.output_size 1) ∧
    (s.layer.get_weight_gradientsAt x).length = 2 := by
  refine ⟨?_, ?_, ?_⟩
  · unfold DenseState.get_weight_gradients
    rw [hc]
  · cases x <;> rfl
  · cases x <;> rfl

/-- Witness for C3: zero layer 2 × 3 with cached input [1, 2]. -/
theorem bias_gradient_always_ones_witness :
    (DenseState.mk denseZero23 (some (Tensor.r1 [1, 2]))).get_weight_gradients =
      Except.ok (denseZero23.get_weight_gradientsAt (Tensor.r1 [1, 2])) ∧
    (denseZero23.get_weight_gradientsAt (Tensor.r1 [1, 2])).getD 1
        (NDTensor.r1 []) =
      NDTensor.r1 (List.replicate denseZero23.output_size 1) ∧
    (denseZero23.get_weight_gradientsAt (Tensor.r1 [1, 2])).length = 2 :=
  bias_gradient_always_ones
    (DenseState.mk denseZero23 (some (Tensor.r1 [1, 2]))) (Tensor.r1 [1, 2]) rfl

/-- C4: a successful call caches the promoted input verbatim: for a rank-1
input the cache is the rank-2 1 × input_size batch, and a subsequent
get_weight_gradients computes from that rank-2 value. -/
theorem call_caches_promoted_input (s s2 : DenseState) (x : Tensor) (y : Mat)
    (h : s.call x = Except.ok (s2, y)) :
    s2.layer = s.layer ∧
    s2.inputs = some (Tensor.r2 (promote x)) ∧
    s2.get_weight_gradients =
      Except.ok (s.layer.get_weight_gradientsAt (Tensor.r2 (promote x))) ∧
    ∀ v, x = Tensor.r1 v → s2.inputs = some (Tensor.r2 [v]) := by
  unfold DenseState.call at h
  revert h
  cases hf : s.layer.forward x with
  | error e => intro h; exact Except.noConfusion h
  | ok z =>
      intro h
      simp only [Except.ok.injEq, Prod.mk.injEq] at h
      obtain ⟨rfl, rfl⟩ := h
      refine ⟨rfl, rfl, rfl, ?_⟩
      intro v hv
      subst hv
      rfl

/-- Witness for C4: calling the fresh zero layer with [1, 2] caches the
promoted batch [[1, 2]]. -/
theorem call_caches_promoted_input_witness :
    (DenseState.mk denseZero23 (some (Tensor.r2 [[1, 2]]))).layer =
      (Dense.freshState denseZero23).layer ∧
    (DenseState.mk denseZero23 (some (Tensor.r2 [[1, 2]]))).inputs =
      some (Tensor.r2 (promote (Tensor.r1 [1, 2]))) ∧
    (DenseState.mk denseZero23 (some (Tensor.r2 [[1, 2]]))).get_weight_gradients =
      Except.ok ((Dense.freshState denseZero23).layer.get_weight_gradientsAt
        (Tensor.r2 (promote (Tensor.r1 [1, 2])))) ∧
    (∀ v, Tensor.r1 [1, 2] = Tensor.r1 v →
      (DenseState.mk denseZero23 (some (Tensor.r2 [[1, 2]]))).inputs =
        some (Tensor.r2 [v])) :=
  call_caches_promoted_input (Dense.freshState denseZero23)
    (DenseState.mk denseZero23 (some (Tensor.r2 [[1, 2]])))
    (Tensor.r1 [1, 2]) [[0, 0, 0]]
    (by simp [DenseState.call, Dense.forward, npMatmul, addBias, denseZero23,
      mkMatrix, promote, Dense.freshState, List.range_succ])

/-- C5 counterexample: forward on the 2 × 3 zero layer with a length-3
input does not fail with the dedicated layer-level shape-mismatch error
`denseShapeMismatch`; it propagates the array library's matmul error. -/
theorem forward_mismatch_counterexample :
    denseZero23.forward (Tensor.r1 [1, 2, 3]) =
      Except.error (LayerError.npMatmulError 3 2) := by decide

/-- C5 amended: for every genuine input whose trailing dimension differs
from input_size, forward fails by propagating the underlying array
library's matmul error; forward performs no dedicated layer-level shape
check. -/
theorem forward_mismatch_propagates_library_error (d : Dense) (x : Tensor)
    (hwf : d.wf) (hxwf : tensorWf x = true)
    (hdim : trailingDim x ≠ d.input_size) :
    d.forward x =
      Except.error (LayerError.npMatmulError (trailingDim x) d.input_size) := by
  obtain ⟨hw, _⟩ := hwf
  rw [isShape2_iff] at hw
  obtain ⟨hwlen, _⟩ := hw
  have hfalse : (promote x).all (fun row => row.length == d.w.length) = false := by
    cases x with
    | r1 v =>
        simp only [promote, List.all_cons, List.all_nil, Bool.and_true]
        rw [beq_eq_false_iff_ne, hwlen]
        exact hdim
    | r2 m =>
        cases m with
        | nil => simp [tensorWf, List.isEmpty] at hxwf
        | cons a rest =>
            have ha : (a.length == d.w.length) = false := by
              rw [beq_eq_false_iff_ne, hwlen]
              exact hdim
            simp only [promote, List.all_cons, ha, Bool.false_and]
  have hpay : ((promote x).headD []).length = trailingDim x := by
    cases x <;> rfl
  unfold Dense.forward npMatmul
  rw [if_neg (by rw [hfalse]; simp)]
  rw [hpay, hwlen]

/-- Witness for C5 amended: a 2-row batch with trailing dimension 3 fed to
the 2 × 3 zero layer. -/
theorem forward_mismatch_propagates_library_error_witness :
    denseZero23.forward (Tensor.r2 [[1, 2, 3], [4, 5, 6]]) =
      Except.error (LayerError.npMatmulError
        (trailingDim (Tensor.r2 [[1, 2, 3], [4, 5, 6]]))
        denseZero23.input_size) :=
  forward_mismatch_propagates_library_error denseZero23
    (Tensor.r2 [[1, 2, 3], [4, 5, 6]])
    (by unfold Dense.wf; decide) (by decide) (by decide)

/-- C6 counterexample: on a freshly constructed layer (no forward call yet),
the gradient operation get_input_gradients does not fail: it returns the
weight matrix, refuting the claim that every gradient operation fails with a
no-cached-input error before the first forward call. -/
theorem fresh_input_gradients_succeed_counterexample :
    (Dense.freshState denseZero23).get_input_gradients =
      [NDTensor.r2 denseZero23.w] := rfl

/-- C6 amended: before any forward call, the cache-consuming gradient
operation get_weight_gradients fails with the no-cached-input
state-precondition error, while get_input_gradients (which reads only the
weights) succeeds. -/
theorem fresh_weight_gradients_fail (d : Dense) :
    (Dense.freshState d).get_weight_gradients =
      Except.error LayerError.noCachedInput ∧
    (Dense.freshState d).get_input_gradients = [NDTensor.r2 d.w] :=
  ⟨rfl, rfl⟩

/-- C7 counterexample: constructing with the unrecognized name "BOGUS"
fails with a configuration error naming the lowercased string "bogus" — not
the offending string "BOGUS" itself — and no layer (hence no Parameter) is
created. -/
theorem unknown_initializer_counterexample :
    Dense.make zeroRng 2 3 "BOGUS" =
      Except.error (LayerError.unknownInitializer "bogus") ∧
    "bogus" ≠ "BOGUS" := by decide

/-- C7 amended: for every name whose lowercasing matches none of the six
recognized strategies, construction fails atomically (no layer, hence no
Parameter, is created) with a configuration error naming the lowercased
offending string. -/
theorem unknown_initializer_fails (rng : RandomSource) (n m : Nat)
    (name : String) (h : strToLower name ∉ recognizedInitializers) :
    Dense.make rng n m name =
      Except.error (LayerError.unknownInitializer (strToLower name)) := by
  simp only [recognizedInitializers, List.mem_cons, List.not_mem_nil,
    or_false, not_or] at h
  obtain ⟨h1, h2, h3, h4, h5, h6⟩ := h
  unfold Dense.make
  simp only [initialize_weight]
  rw [if_neg h1, if_neg h2, if_neg h3, if_neg h4, if_neg h5, if_neg h6]

/-- Witness for C7 amended at the name "glorot". -/
theorem unknown_initializer_fails_witness :
    Dense.make zeroRng 2 3 "glorot" =
      Except.error (LayerError.unknownInitializer (strToLower "glorot")) :=
  unknown_initializer_fails zeroRng 2 3 "glorot" (by decide)

/-- C8: for every name matching a recognized strategy case-insensitively,
construction succeeds and weights returns exactly two Parameters, in order
[W, b], with shapes (input_size, output_size) and (output_size,), and b the
all-zero vector of length output_size. -/
theorem recognized_initializer_succeeds (rng : RandomSource) (n m : Nat)
    (name : String) (h : strToLower name ∈ recognizedInitializers) :
    ∃ d, Dense.make rng n m name = Except.ok d ∧
      d.weights = [NDTensor.r2 d.w, NDTensor.r1 d.b] ∧
      d.weights.length = 2 ∧
      d.input_size = n ∧ d.output_size = m ∧
      isShape2 d.w n m = true ∧
      d.b = List.replicate m 0 := by
  simp only [recognizedInitializers, List.mem_cons, List.not_mem_nil,
    or_false] at h
  rcases h with h | h | h | h | h | h
  · exact make_ok_of_initialize_ok rng n m name
      (mkMatrix n m (fun _ _ => 0))
      (by simp [initialize_weight, h]) (mkMatrix_shape n m _)
  · exact make_ok_of_initialize_ok rng n m name
      (mkMatrix n m rng.normal01)
      (by simp [initialize_weight, h]) (mkMatrix_shape n m _)
  · exact make_ok_of_initialize_ok rng n m name
      (mkMatrix n m rng.normalXavier)
      (by simp [initialize_weight, h]) (mkMatrix_shape n m _)
  · exact make_ok_of_initialize_ok rng n m name
      (mkMatrix n m rng.normalKaiming)
      (by simp [initialize_weight, h]) (mkMatrix_shape n m _)
  · exact make_ok_of_initialize_ok rng n m name
      (mkMatrix n m rng.uniformXavier)
      (by simp [initialize_weight, h]) (mkMatrix_shape n m _)
  · exact make_ok_of_initialize_ok rng n m name
      (mkMatrix n m rng.uniformKaiming)
      (by simp [initialize_weight, h]) (mkMatrix_shape n m _)

/-- Witness for C8 at the mixed-case name "Xavier Uniform". -/
theorem recognized_initializer_succeeds_witness :
    ∃ d, Dense.make zeroRng 2 3 "Xavier Uniform" = Except.ok d ∧
      d.weights = [NDTensor.r2 d.w, NDTensor.r1 d.b] ∧
      d.weights.length = 2 ∧
      d.input_size = 2 ∧ d.output_size = 3 ∧
      isShape2 d.w 2 3 = true ∧
      d.b = List.replicate 3 0 :=
  recognized_initializer_succeeds zeroRng 2 3 "Xavier Uniform" (by decide)

/-- C9: a layer built with the "zero" initializer (any positive sizes)
returns an all-zero rank-2 output from forward on every valid rank-1 or
rank-2 input. -/
theorem zero_layer_forward_all_zero (rng : RandomSource) (n m : Nat)
    (d : Dense) (x : Tensor) (hn : 0 < n) (hm : 0 < m)
    (hmk : Dense.make rng n m "zero" = Except.ok d)
    (hx : validInput n x = true) :
    d.forward x =
      Except.ok (List.replicate (promote x).length (List.replicate m 0)) := by
  have hz : strToLower "zero" = "zero" := by decide
  have hmk0 : Dense.make rng n m "zero" =
      Except.ok ⟨n, m, mkMatrix n m (fun _ _ => 0), List.replicate m 0⟩ := by
    unfold Dense.make
    simp [initialize_weight, hz]
  rw [hmk0] at hmk
  obtain rfl := (Except.ok.inj hmk).symm
  have hwlen : (mkMatrix n m (fun _ _ => (0 : Rat))).length = n := by
    simp [mkMatrix]
  have hrows : ∀ row ∈ promote x,
      row.length = (mkMatrix n m (fun _ _ => (0 : Rat))).length := by
    rw [hwlen]
    exact promote_rows n x hx
  have hne : mkMatrix n m (fun _ _ => (0 : Rat)) ≠ [] := by
    intro hh
    rw [← List.length_eq_zero, hwlen] at hh
    omega
  have hcols : ((mkMatrix n m (fun _ _ => (0 : Rat))).headD []).length = m :=
    headD_length _ m hne
      ((isShape2_iff _ _ _).mp (mkMatrix_shape n m _)).2
  unfold Dense.forward
  rw [npMatmul_ok _ _ hrows]
  dsimp only
  congr 1
  unfold addBias
  rw [List.map_map]
  have hzrow : ∀ row ∈ promote x,
      List.zipWith (fun a c => a + c)
        ((List.range ((mkMatrix n m (fun _ _ => (0 : Rat))).headD []).length).map
          (fun j => (List.zipWith (fun a wr => a * wr.getD j 0) row
            (mkMatrix n m (fun _ _ => (0 : Rat)))).sum))
        (List.replicate m 0) = List.replicate m 0 := by
    intro row _
    rw [hcols]
    have hlen : m = (List.replicate m (0 : Rat)).length := by simp
    have hstep := zipWith_add_range_map (List.replicate m (0 : Rat))
      (fun j => (List.zipWith (fun a wr => a * wr.getD j 0) row
        (mkMatrix n m (fun _ _ => (0 : Rat)))).sum)
    rw [List.length_replicate] at hstep
    rw [hstep]
    have hzero : (List.range m).map
        (fun j => (List.zipWith (fun a wr => a * wr.getD j 0) row
          (mkMatrix n m (fun _ _ => (0 : Rat)))).sum +
          (List.replicate m (0 : Rat)).getD j 0) =
        (List.range m).map (fun _ => (0 : Rat)) := by
      apply List.map_congr_left
      intro j hj
      rw [List.mem_range] at hj
      rw [zipWith_mul_zero_right row _ j (mkMatrix_all_zero n m),
        repGetD 0 hj]
      simp
    rw [hzero, List.map_const', List.length_range]
  have hmap : (promote x).map
      ((fun row => List.zipWith (fun a c => a + c) row (List.replicate m 0)) ∘
        (fun row =>
          (List.range ((mkMatrix n m (fun _ _ => (0 : Rat))).headD []).length).map
            (fun j => (List.zipWith (fun a wr => a * wr.getD j 0) row
              (mkMatrix n m (fun _ _ => (0 : Rat)))).sum))) =
      (promote x).map (fun _ => List.replicate m 0) :=
    List.map_congr_left (fun row hrow => hzrow row hrow)
  rw [hmap, List.map_const']

/-- Witness for C9: the zero 2 × 3 layer on input [1, 2] yields
[[0, 0, 0]]. -/
theorem zero_layer_forward_all_zero_witness :
    (⟨2, 3, mkMatrix 2 3 (fun _ _ => 0), List.replicate 3 0⟩ : Dense).forward
        (Tensor.r1 [1, 2]) =
      Except.ok (List.replicate (promote (Tensor.r1 [1, 2])).length
        (List.replicate 3 0)) :=
  zero_layer_forward_all_zero zeroRng 2 3
    ⟨2, 3, mkMatrix 2 3 (fun _ _ => 0), List.replicate 3 0⟩
    (Tensor.r1 [1, 2]) (by decide) (by decide)
    (by
      have hz : strToLower "zero" = "zero" := by decide
      unfold Dense.make
      simp [initialize_weight, hz])
    (by decide)

/-- C10: in every layer state — cache empty or not — get_input_gradients
returns the one-element sequence holding the weight matrix W itself, the
same value as the first element of weights, of shape
input_size × output_size, untransposed and with no batch dimension. -/
theorem input_gradients_are_weights (s : DenseState) (hwf : s.layer.wf) :
    s.get_input_gradients = [NDTensor.r2 s.layer.w] ∧
    s.layer.weights.getD 0 (NDTensor.r1 []) = NDTensor.r2 s.layer.w ∧
    isShape2 s.layer.w s.layer.input_size s.layer.output_size = true :=
  ⟨rfl, rfl, hwf.1⟩

/-- Witness for C10 at the fresh zero layer. -/
theorem input_gradients_are_weights_witness :
    (Dense.freshState denseZero23).get_input_gradients =
      [NDTensor.r2 (Dense.freshState denseZero23).layer.w] ∧
    (Dense.freshState denseZero23).layer.weights.getD 0 (NDTensor.r1 []) =
      NDTensor.r2 (Dense.freshState denseZero23).layer.w ∧
    isShape2 (Dense.freshState denseZero23).layer.w
      (Dense.freshState denseZero23).layer.input_size
      (Dense.freshState denseZero23).layer.output_size = true :=
  input_gradients_are_weights (Dense.freshState denseZero23)
    (by unfold Dense.wf; decide)

end Beras
